import Mathlib

/-!
Moon Portfolio 3D: a shallow embedding of the application glue.

The development embeds the original logic of the repository
(`src/js/main.js`, `src/js/physics.js` and the `MoonSurface` class) as Lean
definitions and proves the properties its specification states about them.

Conventions of the embedding
* JavaScript numbers are elements of a field `α`; the theorems about
  `Math.sin`, `Math.sqrt` and Euclidean distance are stated over `ℝ`, the
  structural ones over any field.
* Where rounding decides a property it is explicit: the store into the
  `Float32Array` of the geometry applies `fround`, and `updateCameraFl` is
  `updateCamera` with the result of every arithmetic operation rounded.
* `Math.sin`, `Math.sqrt` and `Math.random` are arguments of the definitions
  that call them; `Math.random` is a stream of draws together with the count
  of draws already consumed.
* Objects with identity (`CANNON.Material`) carry the identifier the engine
  gives them at allocation.
-/

set_option autoImplicit false

namespace MoonPortfolio

/-! ## Input flags (`main.js`, `this.keys`, `onKeyDown`, `onKeyUp`) -/

/-- The object literal `this.keys` of the `MoonPortfolio` constructor. -/
structure Keys where
  forward : Bool
  backward : Bool
  left : Bool
  right : Bool
  jump : Bool
  deriving DecidableEq

/-- Initial value of `this.keys`: every flag is `false`. -/
def Keys.initial : Keys :=
  { forward := false, backward := false, left := false, right := false, jump := false }

/-- Result of a key handler: the flags afterwards, and whether the handler
called `event.preventDefault()`. -/
structure KeyResult where
  keys : Keys
  defaultPrevented : Bool
  deriving DecidableEq

/-- `onKeyDown(event)`: a `switch` over `event.code`; codes without a `case`
fall through the `switch` and change nothing. -/
def onKeyDown (code : String) (keys : Keys) : KeyResult :=
  match code with
  | "KeyW" | "ArrowUp" => { keys := { keys with forward := true }, defaultPrevented := false }
  | "KeyS" | "ArrowDown" => { keys := { keys with backward := true }, defaultPrevented := false }
  | "KeyA" | "ArrowLeft" => { keys := { keys with left := true }, defaultPrevented := false }
  | "KeyD" | "ArrowRight" => { keys := { keys with right := true }, defaultPrevented := false }
  | "Space" => { keys := { keys with jump := true }, defaultPrevented := true }
  | _ => { keys := keys, defaultPrevented := false }

/-- `onKeyUp(event)`: the same `switch`, storing `false`; it never calls
`event.preventDefault()`. -/
def onKeyUp (code : String) (keys : Keys) : Keys :=
  match code with
  | "KeyW" | "ArrowUp" => { keys with forward := false }
  | "KeyS" | "ArrowDown" => { keys with backward := false }
  | "KeyA" | "ArrowLeft" => { keys with left := false }
  | "KeyD" | "ArrowRight" => { keys with right := false }
  | "Space" => { keys with jump := false }
  | _ => keys

/-- Names of the five fields of `this.keys`. -/
inductive Flag where
  | forward | backward | left | right | jump
  deriving DecidableEq

/-- Read one field of the flag object by name. -/
def Keys.get (k : Keys) : Flag → Bool
  | .forward => k.forward
  | .backward => k.backward
  | .left => k.left
  | .right => k.right
  | .jump => k.jump

/-- The key vocabulary as the specification lists it: each mapped key code
with the flag it drives. This table is the specification side of the
statements about `onKeyDown` and `onKeyUp`; the handlers above do not use it. -/
def keyMap : List (String × Flag) :=
  [("KeyW", .forward), ("ArrowUp", .forward),
   ("KeyS", .backward), ("ArrowDown", .backward),
   ("KeyA", .left), ("ArrowLeft", .left),
   ("KeyD", .right), ("ArrowRight", .right),
   ("Space", .jump)]

/-! ## Terrain heights (`MoonSurface.createSurface`) -/

/-- Body of the height loop for one vertex:
`distance = Math.sqrt(x * x + y * y)` and
`height = Math.sin(distance * 0.1) * 0.5 + Math.random() * 0.3`,
where `u` is the value `Math.random()` returned. -/
def terrainHeight {α : Type} [Field α] (sin sqrt : α → α) (x y u : α) : α :=
  sin (sqrt (x * x + y * y) * 0.1) * 0.5 + u * 0.3

/-- The loop `for (let i = 0; i < positions.length; i += 3)` of
`createSurface`, from index `i` on, with `draws` calls of `Math.random`
made so far; `random k` is the value of call number `k`. The result is the
array and the number of calls made. `fuel` bounds the iterations.

`positions` is the `Float32Array` of the geometry: the store
`positions[i + 2] = height` keeps `fround height`, the float32 nearest to the
height (`float32Round` below), not the height itself.

A read past the end of the typed array yields a value that is never stored:
the store at `i + 2` is then past the end as well, and a typed array drops
such a store, as `List.set` does. -/
def heightLoop {α : Type} [Field α] (sin sqrt fround : α → α) (random : Nat → α) :
    Nat → Nat → Nat → List α → List α × Nat
  | 0, _, draws, positions => (positions, draws)
  | fuel + 1, i, draws, positions =>
    if i < positions.length then
      let x := positions.getD i 0
      let y := positions.getD (i + 1) 0
      let height := terrainHeight sin sqrt x y (random draws)
      heightLoop sin sqrt fround random fuel (i + 3) (draws + 1)
        (positions.set (i + 2) (fround height))
    else (positions, draws)

/-- The height loop of `createSurface` run from `i = 0` on the position array
of the geometry; `positions.length` iterations always suffice, since `i`
grows by three each time. -/
def createSurfaceHeights {α : Type} [Field α] (sin sqrt fround : α → α) (random : Nat → α)
    (positions : List α) : List α × Nat :=
  heightLoop sin sqrt fround random positions.length 0 0 positions

/-- Round to the nearest integer, a tie going to the even neighbour. -/
def roundHalfEven {α : Type} [LinearOrderedField α] [FloorRing α] (r : α) : ℤ :=
  if r - ⌊r⌋ < 1 / 2 then ⌊r⌋
  else if 1 / 2 < r - ⌊r⌋ then ⌊r⌋ + 1
  else if ⌊r⌋ % 2 = 0 then ⌊r⌋ else ⌊r⌋ + 1

/-- The conversion a `Float32Array` applies to a stored number (`Math.fround`):
the nearest number with a 24-bit significand, ties to even. The spacing of
float32 numbers around `v` is `2 ^ (e - 23)` for `2 ^ e ≤ |v| < 2 ^ (e + 1)`,
and `2 ^ (-149)` below `2 ^ (-126)`. Magnitudes of `2 ^ 128` and more, which
the array stores as an infinity, have no counterpart here; terrain heights
are below `1` in magnitude. -/
def float32Round {α : Type} [LinearOrderedField α] [FloorRing α] (v : α) : α :=
  if v = 0 then 0
  else
    let e := max (Int.log 2 |v|) (-126)
    let ulp : α := 2 ^ (e - 23)
    (roundHalfEven (v / ulp) : α) * ulp

/-! ## Vectors and the follow camera (`updateCamera`) -/

/-- A `THREE.Vector3` / `CANNON.Vec3`. -/
structure Vec3 (α : Type) where
  x : α
  y : α
  z : α
  deriving DecidableEq

/-- `Vector3.lerp(v, alpha)` of three.js:
`this.x += (v.x - this.x) * alpha`, and the same for `y` and `z`. -/
def Vec3.lerp {α : Type} [Field α] (p v : Vec3 α) (alpha : α) : Vec3 α :=
  { x := p.x + (v.x - p.x) * alpha
    y := p.y + (v.y - p.y) * alpha
    z := p.z + (v.z - p.z) * alpha }

/-- Squared Euclidean distance of two points. -/
def Vec3.distSq {α : Type} [Field α] (a b : Vec3 α) : α :=
  (a.x - b.x) * (a.x - b.x) + (a.y - b.y) * (a.y - b.y) + (a.z - b.z) * (a.z - b.z)

/-- The camera fields the application writes: `camera.position` and the point
last passed to `camera.lookAt`. -/
structure Camera (α : Type) where
  position : Vec3 α
  lookAt : Vec3 α
  deriving DecidableEq

/-- `setupCamera`: `position.set(0, 5, 15)` and `lookAt(0, 0, 0)`. -/
def setupCamera {α : Type} [Field α] : Camera α :=
  { position := ⟨0, 5, 15⟩, lookAt := ⟨0, 0, 0⟩ }

/-- `desiredPosition` of `updateCamera`:
`new THREE.Vector3(c.x, c.y + 5, c.z + 10)`. -/
def desiredPosition {α : Type} [Field α] (characterPosition : Vec3 α) : Vec3 α :=
  { x := characterPosition.x, y := characterPosition.y + 5, z := characterPosition.z + 10 }

/-! ## The frame callback (`startRenderLoop`, `updatePhysics`, `updateStars`) -/

/-- Calls and stores a frame makes, in the order they happen. -/
inductive Effect (α : Type) where
  | requestAnimationFrame
  | worldStep (deltaTime : α)
  | characterUpdate (keys : Keys) (deltaTime : α)
  | cameraFollow
  | starsRotate (deltaTime : α)
  | tweenUpdate
  | render
  deriving DecidableEq

/-- The collaborators of the frame whose code is outside `main.js`: the
physics engine step, and `update` and `getPosition` of the character
controller. They act on the simulation state `σ` (bodies and character). -/
structure Engine (σ α : Type) where
  worldStep : σ → α → σ
  characterUpdate : σ → Keys → α → σ
  getPosition : σ → Vec3 α

/-- The fields of the `MoonPortfolio` object the frame reads and writes.
`hasWorld` and `hasCharacter` say whether `this.world` and `this.character`
are set (both start as `null`); `stars` is `this.stars.rotation.y` once
`createStarfield` has run; `trace` records the effects so far. -/
structure App (σ α : Type) where
  keys : Keys
  camera : Camera α
  hasWorld : Bool
  hasCharacter : Bool
  sim : σ
  stars : Option α
  trace : List (Effect α)

/-- Append one effect to the trace. -/
def App.emit {σ α : Type} (s : App σ α) (e : Effect α) : App σ α :=
  { s with trace := s.trace ++ [e] }

/-- `updatePhysics(deltaTime)`: `this.world.step(deltaTime)` if the world is
set, then `this.character.update(this.keys, deltaTime)` if the character is. -/
def updatePhysics {σ α : Type} (eng : Engine σ α) (deltaTime : α) (s : App σ α) : App σ α :=
  let s1 := if s.hasWorld then
      ({ s with sim := eng.worldStep s.sim deltaTime } : App σ α).emit (.worldStep deltaTime)
    else s
  if s1.hasCharacter then
    ({ s1 with sim := eng.characterUpdate s1.sim s1.keys deltaTime } : App σ α).emit
      (.characterUpdate s1.keys deltaTime)
  else s1

/-- `updateCamera()`: when the character is set, blend the camera position
toward `desiredPosition` with `lerp(desiredPosition, 0.05)` and look at the
character position. -/
def updateCamera {σ α : Type} [Field α] (eng : Engine σ α) (s : App σ α) : App σ α :=
  if s.hasCharacter then
    let characterPosition := eng.getPosition s.sim
    ({ s with camera := { position := s.camera.position.lerp
                            (desiredPosition characterPosition) 0.05
                          lookAt := characterPosition } } : App σ α).emit .cameraFollow
  else s

/-- `updateStars(deltaTime)`: `this.stars.rotation.y += deltaTime * 0.0001`
when the stars exist. -/
def updateStars {σ α : Type} [Field α] (deltaTime : α) (s : App σ α) : App σ α :=
  match s.stars with
  | some yaw =>
    ({ s with stars := some (yaw + deltaTime * 0.0001) } : App σ α).emit (.starsRotate deltaTime)
  | none => s

/-- The closure `animate` of `startRenderLoop`, for the value `deltaTime` that
`this.clock.getDelta()` returns: reschedule itself, `updatePhysics`,
`updateCamera`, `updateStars`, `TWEEN.update()`, `renderer.render`. -/
def animate {σ α : Type} [Field α] (eng : Engine σ α) (deltaTime : α) (s : App σ α) :
    App σ α :=
  let s0 := s.emit .requestAnimationFrame
  let s1 := updatePhysics eng deltaTime s0
  let s2 := updateCamera eng s1
  let s3 := updateStars deltaTime s2
  let s4 := s3.emit .tweenUpdate
  s4.emit .render

/-- Number of `render` calls in a trace. -/
def renderCount {α : Type} (t : List (Effect α)) : Nat :=
  (t.filter (fun e => match e with | .render => true | _ => false)).length

/-! ## The follow camera in rounded arithmetic

JavaScript numbers are doubles: the result of every arithmetic operation is
rounded to a representable number. `fl` is that rounding. -/

/-- What the statements about rounded arithmetic use of the rounding `fl`: it
is monotone, it leaves its own results alone, and it never more than doubles a
number (`fl x` lies between `0` and `2 * x`). Rounding to the nearest double
has these properties as long as no result overflows. -/
structure IsRounding {α : Type} [LinearOrderedField α] (fl : α → α) : Prop where
  mono : ∀ x y : α, x ≤ y → fl x ≤ fl y
  idem : ∀ x : α, fl (fl x) = fl x
  le_double : ∀ x : α, 0 ≤ x → fl x ≤ 2 * x
  double_le : ∀ x : α, x ≤ 0 → 2 * x ≤ fl x

/-- The three coordinates of a vector are representable numbers. -/
def Vec3.representable {α : Type} (fl : α → α) (v : Vec3 α) : Prop :=
  fl v.x = v.x ∧ fl v.y = v.y ∧ fl v.z = v.z

/-- `Vector3.lerp(v, alpha)` with each operation of
`this.x += (v.x - this.x) * alpha` rounded. -/
def Vec3.lerpFl {α : Type} [Field α] (fl : α → α) (p v : Vec3 α) (alpha : α) : Vec3 α :=
  { x := fl (p.x + fl (fl (v.x - p.x) * alpha))
    y := fl (p.y + fl (fl (v.y - p.y) * alpha))
    z := fl (p.z + fl (fl (v.z - p.z) * alpha)) }

/-- `desiredPosition` of `updateCamera` with the two additions rounded. -/
def desiredPositionFl {α : Type} [Field α] (fl : α → α) (characterPosition : Vec3 α) :
    Vec3 α :=
  { x := characterPosition.x
    y := fl (characterPosition.y + 5)
    z := fl (characterPosition.z + 10) }

/-- `updateCamera()` in rounded arithmetic; the literal `0.05` is the
representable number `fl 0.05`. -/
def updateCameraFl {σ α : Type} [Field α] (fl : α → α) (eng : Engine σ α) (s : App σ α) :
    App σ α :=
  if s.hasCharacter then
    let characterPosition := eng.getPosition s.sim
    ({ s with camera := { position := s.camera.position.lerpFl fl
                            (desiredPositionFl fl characterPosition) (fl 0.05)
                          lookAt := characterPosition } } : App σ α).emit .cameraFollow
  else s

/-- A rounding for concrete runs: to the nearest multiple of `1 / 64`, a tie
going up. -/
def gridRound {α : Type} [LinearOrderedField α] [FloorRing α] (x : α) : α :=
  (⌊x * 64 + 1 / 2⌋ : α) / 64

/-! ## Physics set-up (`physics.js`, `MoonSurface.setupPhysics`)

The rigid-body engine is a library; the part of it the set-up code drives is
modelled here: materials with an identity, the contact-material registry and
its table keyed on pairs of material identifiers, and the list of bodies. -/

/-- A `CANNON.Material`: its name and the identifier `Material.idCounter++`
gave it. Two materials are the same object exactly when the identifiers
agree. -/
structure Material where
  name : String
  id : Nat
  deriving DecidableEq

/-- `new CANNON.Material(name)` with the global counter at `idCounter`: the new
material and the counter afterwards. -/
def Material.create (name : String) (idCounter : Nat) : Material × Nat :=
  ({ name := name, id := idCounter }, idCounter + 1)

/-- A `CANNON.ContactMaterial` with the four options the set-up code passes. -/
structure ContactMaterial where
  materials : Material × Material
  friction : ℚ
  restitution : ℚ
  contactEquationStiffness : ℚ
  contactEquationRelaxation : ℚ
  deriving DecidableEq

/-- Key of the engine's `TupleDictionary`: the two identifiers, smaller one
first (`if (i > j) swap`). -/
def tupleKey (i j : Nat) : Nat × Nat :=
  if i > j then (j, i) else (i, j)

/-- Orientation of a body: the identity a new body has, or the value of
`quaternion.setFromAxisAngle(axis, angle)`, with the angle in units of π. -/
inductive Orientation where
  | identity
  | axisAngle (axis : Vec3 ℚ) (angleOverPi : ℚ)
  deriving DecidableEq

/-- A `CANNON.Body` holding a `CANNON.Plane` shape, as both ground bodies do. A
body not given a position is at the origin with the identity orientation; its
material is the option passed, if any. -/
structure Body where
  mass : ℚ
  material : Option Material
  quaternion : Orientation
  position : Vec3 ℚ
  deriving DecidableEq

/-- `new CANNON.Body` with the options `mass`, `shape` (a plane) and `material`. -/
def Body.create (mass : ℚ) (material : Option Material) : Body :=
  { mass := mass, material := material, quaternion := .identity, position := ⟨0, 0, 0⟩ }

/-- The fields of `CANNON.World` the set-up touches. `contactmaterials` is the
registry; `contactMaterialTable` maps a key to the rule stored under it,
newest entry first. -/
structure World where
  gravity : Vec3 ℚ
  naiveBroadphase : Bool
  allowSleep : Bool
  contactmaterials : List ContactMaterial
  contactMaterialTable : List ((Nat × Nat) × ContactMaterial)
  bodies : List Body
  deriving DecidableEq

/-- `new CANNON.World` with the option `gravity`: no rule and no body registered. -/
def World.create (gravity : Vec3 ℚ) : World :=
  { gravity := gravity, naiveBroadphase := false, allowSleep := false,
    contactmaterials := [], contactMaterialTable := [], bodies := [] }

/-- `world.addContactMaterial(cmat)`: push the rule on the registry and store
it in the table under the identifiers of its two materials. -/
def World.addContactMaterial (w : World) (cmat : ContactMaterial) : World :=
  { w with
    contactmaterials := w.contactmaterials ++ [cmat]
    contactMaterialTable :=
      (tupleKey cmat.materials.1.id cmat.materials.2.id, cmat) :: w.contactMaterialTable }

/-- `world.getContactMaterial(m1, m2)`: the rule stored under the identifiers
of the two materials, if any. -/
def World.getContactMaterial (w : World) (m1 m2 : Material) : Option ContactMaterial :=
  w.contactMaterialTable.lookup (tupleKey m1.id m2.id)

/-- `world.add(body)`: register the body. -/
def World.add (w : World) (body : Body) : World :=
  { w with bodies := w.bodies ++ [body] }

/-- The object `PhysicsWorld` of `physics.js`. The materials and the ground
body are set by `setupWorld` and `createGround`. -/
structure PhysicsWorld where
  world : World
  moonMaterial : Option Material
  characterMaterial : Option Material
  groundBody : Option Body
  deriving DecidableEq

/-- `PhysicsWorld.setupWorld()`: broadphase and sleeping, the two materials,
and the one contact rule between them. -/
def PhysicsWorld.setupWorld (p : PhysicsWorld) (idCounter : Nat) : PhysicsWorld × Nat :=
  let world := { p.world with naiveBroadphase := true, allowSleep := true }
  let (moonMaterial, c1) := Material.create "moon" idCounter
  let (characterMaterial, c2) := Material.create "character" c1
  let moonCharacterContact : ContactMaterial :=
    { materials := (moonMaterial, characterMaterial)
      friction := 0.3
      restitution := 0.2
      contactEquationStiffness := 1e8
      contactEquationRelaxation := 3 }
  ({ p with world := world.addContactMaterial moonCharacterContact
            moonMaterial := some moonMaterial
            characterMaterial := some characterMaterial }, c2)

/-- `PhysicsWorld.createGround()`: a static plane with `this.moonMaterial`,
turned by `-Math.PI / 2` about the X axis; no position is set. -/
def PhysicsWorld.createGround (p : PhysicsWorld) : PhysicsWorld :=
  let groundBody :=
    { Body.create 0 p.moonMaterial with quaternion := .axisAngle ⟨1, 0, 0⟩ (-1 / 2) }
  { p with world := p.world.add groundBody, groundBody := some groundBody }

/-- The constructor of `PhysicsWorld`: a world with gravity `(0, -1.62, 0)`,
then `setupWorld()` and `createGround()`. -/
def PhysicsWorld.create (idCounter : Nat) : PhysicsWorld × Nat :=
  let p : PhysicsWorld :=
    { world := World.create ⟨0, -1.62, 0⟩, moonMaterial := none,
      characterMaterial := none, groundBody := none }
  let (p1, c1) := p.setupWorld idCounter
  (p1.createGround, c1)

/-- The pose `createSurface` gives the terrain mesh: Euler rotation in units
of π (`mesh.rotation.x = -Math.PI / 2`) and position (`mesh.position.y = -5`). -/
structure MeshPose where
  rotationOverPi : Vec3 ℚ
  position : Vec3 ℚ
  deriving DecidableEq

/-- Pose part of `MoonSurface.createSurface`. -/
def MoonSurface.meshPose : MeshPose :=
  { rotationOverPi := ⟨-1 / 2, 0, 0⟩, position := ⟨0, -5, 0⟩ }

/-- `MoonSurface.setupPhysics()`: a static plane whose material is a fresh
`new CANNON.Material('moon')`, turned by `-Math.PI / 2` about the X axis and
placed at `(0, -5, 0)`, added to the world. Returns the body, the world and
the material counter afterwards. -/
def MoonSurface.setupPhysics (world : World) (idCounter : Nat) : Body × World × Nat :=
  let (material, c1) := Material.create "moon" idCounter
  let body : Body :=
    { Body.create 0 (some material) with
      quaternion := .axisAngle ⟨1, 0, 0⟩ (-1 / 2)
      position := ⟨0, -5, 0⟩ }
  (body, world.add body, c1)

/-- The physics part of start-up in `main.js`: `setupPhysics` builds the
`PhysicsWorld`, then `setupWorld` builds the `MoonSurface` on the same world.
`world` is `this.world`, the object `physics.world` also refers to. -/
structure Setup where
  physics : PhysicsWorld
  moonBody : Body
  world : World
  deriving DecidableEq

/-- Run the physics part of start-up with the material counter at
`idCounter`. -/
def setup (idCounter : Nat) : Setup :=
  let (physics, c1) := PhysicsWorld.create idCounter
  let (body, world, _) := MoonSurface.setupPhysics physics.world c1
  { physics := { physics with world := world }, moonBody := body, world := world }

/-- A ground plane matches the terrain mesh when it is turned by the mesh
angle about the X axis and sits at the mesh height. -/
def Body.matchesMesh (b : Body) (m : MeshPose) : Prop :=
  b.quaternion = .axisAngle ⟨1, 0, 0⟩ m.rotationOverPi.x ∧ b.position.y = m.position.y

/-! ## Fixtures for concrete runs -/

/-- An engine in which nothing moves: the simulation state is the character
position, and neither the physics step nor the character update changes it. -/
def stillEngine (α : Type) : Engine (Vec3 α) α :=
  { worldStep := fun c _ => c, characterUpdate := fun c _ _ => c, getPosition := fun c => c }

/-- An application state after start-up with the camera at `cameraPosition`
and the character at `characterPosition`: world, character and stars exist, no
key is held and nothing has been traced. -/
def startState {α : Type} [Field α] (cameraPosition characterPosition : Vec3 α) :
    App (Vec3 α) α :=
  { keys := Keys.initial
    camera := { position := cameraPosition, lookAt := ⟨0, 0, 0⟩ }
    hasWorld := true
    hasCharacter := true
    sim := characterPosition
    stars := some 0
    trace := [] }

end MoonPortfolio

namespace MoonPortfolio

/-- C4: for every flag state and every mapped key code, `onKeyDown` followed by
`onKeyUp` with that code leaves the flag of the code `false` and every other
flag as it was before the press. -/
theorem press_release_clears_flag (k : Keys) (code : String) (f : Flag)
    (hmap : (code, f) ∈ keyMap) :
    (onKeyUp code (onKeyDown code k).keys).get f = false ∧
      ∀ g : Flag, g ≠ f → (onKeyUp code (onKeyDown code k).keys).get g = k.get g := by
  simp only [keyMap, List.mem_cons, List.mem_singleton, Prod.mk.injEq, List.mem_nil_iff,
    or_false] at hmap
  rcases hmap with ⟨rfl, rfl⟩ | ⟨rfl, rfl⟩ | ⟨rfl, rfl⟩ | ⟨rfl, rfl⟩ | ⟨rfl, rfl⟩ |
      ⟨rfl, rfl⟩ | ⟨rfl, rfl⟩ | ⟨rfl, rfl⟩ | ⟨rfl, rfl⟩ <;>
    refine ⟨rfl, fun g hg => ?_⟩ <;> cases g <;> first | rfl | exact absurd rfl hg

/-- Witness of C4: the key `KeyW` pressed and released while `left` is held. -/
theorem press_release_clears_flag_witness :
    ("KeyW", Flag.forward) ∈ keyMap ∧
      ((onKeyUp "KeyW" (onKeyDown "KeyW"
          { Keys.initial with left := true }).keys).get Flag.forward = false ∧
        ∀ g : Flag, g ≠ Flag.forward →
          (onKeyUp "KeyW" (onKeyDown "KeyW" { Keys.initial with left := true }).keys).get g
            = Keys.get { Keys.initial with left := true } g) :=
  ⟨by decide, press_release_clears_flag _ "KeyW" Flag.forward (by decide)⟩

/-- C5: for every flag state and every two key codes mapped to two different
flags among forward, backward, left and right, `onKeyDown` for both codes gives
the same state in either order; in it both flags are `true` and every other flag
has its earlier value. -/
theorem keydown_two_keys_independent (k : Keys) (c1 c2 : String) (f1 f2 : Flag)
    (h1 : (c1, f1) ∈ keyMap) (h2 : (c2, f2) ∈ keyMap) (hne : f1 ≠ f2)
    (hj1 : f1 ≠ Flag.jump) (hj2 : f2 ≠ Flag.jump) :
    (onKeyDown c2 (onKeyDown c1 k).keys).keys = (onKeyDown c1 (onKeyDown c2 k).keys).keys ∧
      (onKeyDown c2 (onKeyDown c1 k).keys).keys.get f1 = true ∧
      (onKeyDown c2 (onKeyDown c1 k).keys).keys.get f2 = true ∧
      ∀ g : Flag, g ≠ f1 → g ≠ f2 →
        (onKeyDown c2 (onKeyDown c1 k).keys).keys.get g = k.get g := by
  simp only [keyMap, List.mem_cons, List.mem_singleton, Prod.mk.injEq, List.mem_nil_iff,
    or_false] at h1 h2
  rcases h1 with ⟨rfl, rfl⟩ | ⟨rfl, rfl⟩ | ⟨rfl, rfl⟩ | ⟨rfl, rfl⟩ | ⟨rfl, rfl⟩ |
      ⟨rfl, rfl⟩ | ⟨rfl, rfl⟩ | ⟨rfl, rfl⟩ | ⟨rfl, rfl⟩ <;>
    rcases h2 with ⟨rfl, rfl⟩ | ⟨rfl, rfl⟩ | ⟨rfl, rfl⟩ | ⟨rfl, rfl⟩ | ⟨rfl, rfl⟩ |
      ⟨rfl, rfl⟩ | ⟨rfl, rfl⟩ | ⟨rfl, rfl⟩ | ⟨rfl, rfl⟩ <;>
    first
    | exact absurd rfl hne
    | exact absurd rfl hj1
    | exact absurd rfl hj2
    | (refine ⟨rfl, rfl, rfl, fun g hg1 hg2 => ?_⟩
       cases g <;> first | rfl | exact absurd rfl hg1 | exact absurd rfl hg2)

/-- Witness of C5: the opposite keys `KeyW` and `KeyS` pressed together. -/
theorem keydown_two_keys_independent_witness :
    ("KeyW", Flag.forward) ∈ keyMap ∧ ("KeyS", Flag.backward) ∈ keyMap ∧
      (onKeyDown "KeyS" (onKeyDown "KeyW" Keys.initial).keys).keys
        = (onKeyDown "KeyW" (onKeyDown "KeyS" Keys.initial).keys).keys ∧
      (onKeyDown "KeyS" (onKeyDown "KeyW" Keys.initial).keys).keys
        = { Keys.initial with forward := true, backward := true } :=
  ⟨by decide, by decide,
    (keydown_two_keys_independent Keys.initial "KeyW" "KeyS" Flag.forward Flag.backward
      (by decide) (by decide) (by decide) (by decide) (by decide)).1,
    by decide⟩

/-! ## Terrain heights -/

/-- C1: for every vertex `(x, y)` and every draw `0 ≤ u < 1`, the height
`sin(sqrt(x*x + y*y) * 0.1) * 0.5 + u * 0.3` that `createSurface` writes lies in
`[-0.5, 0.8]`. -/
theorem terrainHeight_bounds (x y u : ℝ) (h0 : 0 ≤ u) (h1 : u < 1) :
    -0.5 ≤ terrainHeight Real.sin Real.sqrt x y u ∧
      terrainHeight Real.sin Real.sqrt x y u ≤ 0.8 := by
  unfold terrainHeight
  have hs1 := Real.neg_one_le_sin (Real.sqrt (x * x + y * y) * 0.1)
  have hs2 := Real.sin_le_one (Real.sqrt (x * x + y * y) * 0.1)
  constructor <;> norm_num <;> linarith

/-- Witness of C1: the vertex `(3, 4)` with the draw `1 / 2`. -/
theorem terrainHeight_bounds_witness :
    (0 : ℝ) ≤ 1 / 2 ∧ (1 / 2 : ℝ) < 1 ∧
      (-0.5 ≤ terrainHeight Real.sin Real.sqrt 3 4 (1 / 2) ∧
        terrainHeight Real.sin Real.sqrt 3 4 (1 / 2) ≤ 0.8) :=
  ⟨by norm_num, by norm_num, terrainHeight_bounds 3 4 (1 / 2) (by norm_num) (by norm_num)⟩

/-- Invariant of the height loop started at vertex `j` of `n`: it makes `n`
draws in all, keeps the length, and entry `m` of the result is the rounded
height when `m` is the `z` slot of a vertex from `j` on, the old entry
otherwise. -/
theorem heightLoop_spec {α : Type} [Field α] (sin sqrt fround : α → α) (random : Nat → α)
    (n : Nat) :
    ∀ (fuel j : Nat) (ps : List α), ps.length = 3 * n → j ≤ n → n ≤ j + fuel →
      (heightLoop sin sqrt fround random fuel (3 * j) j ps).2 = n ∧
      (heightLoop sin sqrt fround random fuel (3 * j) j ps).1.length = ps.length ∧
      ∀ m : Nat, (heightLoop sin sqrt fround random fuel (3 * j) j ps).1[m]? =
        if 3 * j ≤ m ∧ m % 3 = 2 ∧ m < 3 * n then
          some (fround (terrainHeight sin sqrt (ps.getD (m - 2) 0) (ps.getD (m - 1) 0)
            (random (m / 3))))
        else ps[m]? := by
  intro fuel
  induction fuel with
  | zero =>
    intro j ps hlen hj hn
    have hjn : j = n := by omega
    subst hjn
    refine ⟨rfl, rfl, fun m => ?_⟩
    have : ¬ (3 * j ≤ m ∧ m % 3 = 2 ∧ m < 3 * j) := by omega
    simp only [heightLoop, this, if_false]
  | succ fuel ih =>
    intro j ps hlen hj hn
    by_cases hlt : 3 * j < ps.length
    · have hstep : heightLoop sin sqrt fround random (fuel + 1) (3 * j) j ps
          = heightLoop sin sqrt fround random fuel (3 * (j + 1)) (j + 1)
              (ps.set (3 * j + 2)
                (fround (terrainHeight sin sqrt (ps.getD (3 * j) 0) (ps.getD (3 * j + 1) 0)
                  (random j)))) := by
        simp only [heightLoop, hlt, if_true]
        rfl
      rw [hstep]
      obtain ⟨h1, h2, h3⟩ := ih (j + 1) (ps.set (3 * j + 2)
        (fround (terrainHeight sin sqrt (ps.getD (3 * j) 0) (ps.getD (3 * j + 1) 0)
          (random j))))
        (by simpa using hlen) (by omega) (by omega)
      refine ⟨h1, by simpa using h2, fun m => ?_⟩
      rw [h3 m]
      by_cases hm : m = 3 * j + 2
      · subst hm
        have c1 : ¬ (3 * (j + 1) ≤ 3 * j + 2 ∧ (3 * j + 2) % 3 = 2 ∧ 3 * j + 2 < 3 * n) := by
          omega
        have c2 : 3 * j ≤ 3 * j + 2 ∧ (3 * j + 2) % 3 = 2 ∧ 3 * j + 2 < 3 * n := by omega
        have e3 : (3 * j + 2) / 3 = j := by omega
        have hb : 3 * j + 2 < ps.length := by omega
        simp only [c1, c2, if_false, if_true, List.getElem?_set, hb, e3,
          Nat.add_sub_cancel]
        have e1 : 3 * j + 2 - 1 = 3 * j + 1 := by omega
        simp [e1]
      · by_cases hc : 3 * (j + 1) ≤ m ∧ m % 3 = 2 ∧ m < 3 * n
        · have c2 : 3 * j ≤ m ∧ m % 3 = 2 ∧ m < 3 * n := by omega
          have n1 : 3 * j + 2 ≠ m - 2 := by omega
          have n2 : 3 * j + 2 ≠ m - 1 := by omega
          simp only [hc, c2, if_true, and_self, List.getD_eq_getElem?_getD,
            List.getElem?_set, n1, n2, if_false]
        · have c2 : ¬ (3 * j ≤ m ∧ m % 3 = 2 ∧ m < 3 * n) := by omega
          have n0 : 3 * j + 2 ≠ m := fun h => hm h.symm
          simp only [hc, c2, if_false, List.getElem?_set, n0]
    · have hjn : j = n := by omega
      subst hjn
      refine ⟨?_, ?_, fun m => ?_⟩
      · simp only [heightLoop, hlt, if_false]
      · simp only [heightLoop, hlt, if_false]
      · have : ¬ (3 * j ≤ m ∧ m % 3 = 2 ∧ m < 3 * j) := by omega
        simp only [heightLoop, hlt, this, if_false]

/-- The value of `float32Round` at a number that is not a tie: with
`2 ^ e ≤ |v| < 2 ^ (e + 1)`, `-126 ≤ e` and `v / 2 ^ (e - 23)` strictly within
`1 / 2` of the integer `k`, the result is `k * 2 ^ (e - 23)`. -/
theorem float32Round_eq {α : Type} [LinearOrderedField α] [FloorRing α] (v : α) (e k : ℤ)
    (hlo : (2 : α) ^ e ≤ |v|) (hhi : |v| < (2 : α) ^ (e + 1)) (he : -126 ≤ e)
    (hk1 : (k : α) - 1 / 2 < v / 2 ^ (e - 23)) (hk2 : v / 2 ^ (e - 23) < (k : α) + 1 / 2) :
    float32Round v = (k : α) * 2 ^ (e - 23) := by
  have hpos : (0 : α) < |v| := lt_of_lt_of_le (by positivity) hlo
  have hv : v ≠ 0 := abs_pos.mp hpos
  have hlog : Int.log 2 |v| = e := by
    apply le_antisymm
    · have := (Int.lt_zpow_iff_log_lt (R := α) (b := 2) (by norm_num) hpos (x := e + 1)).mp
        (by exact_mod_cast hhi)
      omega
    · exact (Int.zpow_le_iff_le_log (R := α) (b := 2) (by norm_num) hpos).mp
        (by exact_mod_cast hlo)
  have hmax : max e (-126) = e := max_eq_left he
  simp only [float32Round, hv, if_false, hlog, hmax]
  congr 1
  by_cases hc : (k : α) ≤ v / 2 ^ (e - 23)
  · have hf : ⌊v / (2 : α) ^ (e - 23)⌋ = k := by
      rw [Int.floor_eq_iff]
      constructor <;> linarith
    have h0 : v / (2 : α) ^ (e - 23) - ((k : ℤ) : α) < 1 / 2 := by linarith
    simp only [roundHalfEven, hf, h0, if_true]
  · push_neg at hc
    have hf : ⌊v / (2 : α) ^ (e - 23)⌋ = k - 1 := by
      rw [Int.floor_eq_iff]
      push_cast
      constructor <;> linarith
    have h1 : ¬ (v / (2 : α) ^ (e - 23) - ((k - 1 : ℤ) : α) < 1 / 2) := by
      push_cast; linarith
    have h2 : 1 / 2 < v / (2 : α) ^ (e - 23) - ((k - 1 : ℤ) : α) := by
      push_cast; linarith
    simp only [roundHalfEven, hf, h1, h2, if_false, if_true]
    push_cast; ring

/-- The float32 nearest to `0.075` is `5033165 / 67108864`
(`0.07500000298023224`). -/
theorem float32Round_three_fortieths :
    float32Round (3 / 40 : ℝ) = 5033165 / 67108864 := by
  rw [float32Round_eq (3 / 40 : ℝ) (-4) 10066330 (by norm_num [abs_of_pos])
    (by norm_num [abs_of_pos]) (by norm_num) (by norm_num) (by norm_num)]
  norm_num

/-- The float32 nearest to `0.15` is `5033165 / 33554432`
(`0.15000000596046448`). -/
theorem float32Round_three_twentieths :
    float32Round (3 / 20 : ℝ) = 5033165 / 33554432 := by
  rw [float32Round_eq (3 / 20 : ℝ) (-3) 10066330 (by norm_num [abs_of_pos])
    (by norm_num [abs_of_pos]) (by norm_num) (by norm_num) (by norm_num)]
  norm_num

/-- Counterexample to C2 as stated: for the single vertex `(0, 0, 9)` and the
draw `1 / 4` the formula gives `0.075`, but the array keeps the float32
`5033165 / 67108864`, so the stored `z` is not the value of the formula. -/
theorem stored_height_differs_from_formula :
    (createSurfaceHeights Real.sin Real.sqrt float32Round (fun _ => 1 / 4) [0, 0, 9]).1[2]?
        = some (5033165 / 67108864) ∧
      (createSurfaceHeights Real.sin Real.sqrt float32Round (fun _ => 1 / 4) [0, 0, 9]).1[2]?
        ≠ some (terrainHeight Real.sin Real.sqrt 0 0 (1 / 4)) := by
  have hh : terrainHeight Real.sin Real.sqrt 0 0 (1 / 4) = 3 / 40 := by
    norm_num [terrainHeight]
  have hs : (createSurfaceHeights Real.sin Real.sqrt float32Round (fun _ => 1 / 4)
      [0, 0, 9]).1[2]? = some (5033165 / 67108864) := by
    simp only [createSurfaceHeights, heightLoop, List.length_cons, List.length_nil,
      List.getD_cons_zero, List.getD_cons_succ, hh, float32Round_three_fortieths,
      List.length_set]
    norm_num
  refine ⟨hs, ?_⟩
  rw [hs, hh]
  norm_num

/-- C2, amended: on a position array of `n` vertices the height loop of
`createSurface` returns an array of the same length, makes exactly `n` draws,
and for every vertex `i < n` keeps `x` and `y` and stores in `z` the float32
rounding `fround` of the height computed from that `x`, that `y` and draw
number `i`; the previous `z` plays no part. -/
theorem createSurfaceHeights_stores_rounded_height {α : Type} [Field α]
    (sin sqrt fround : α → α) (random : Nat → α) (positions : List α) (n : Nat)
    (hlen : positions.length = 3 * n) :
    (createSurfaceHeights sin sqrt fround random positions).1.length = positions.length ∧
      (createSurfaceHeights sin sqrt fround random positions).2 = n ∧
      ∀ i : Nat, i < n →
        (createSurfaceHeights sin sqrt fround random positions).1[3 * i]?
          = positions[3 * i]? ∧
        (createSurfaceHeights sin sqrt fround random positions).1[3 * i + 1]?
          = positions[3 * i + 1]? ∧
        (createSurfaceHeights sin sqrt fround random positions).1[3 * i + 2]?
          = some (fround (terrainHeight sin sqrt (positions.getD (3 * i) 0)
              (positions.getD (3 * i + 1) 0) (random i))) := by
  obtain ⟨h1, h2, h3⟩ := heightLoop_spec sin sqrt fround random n positions.length 0
    positions hlen (Nat.zero_le n) (by omega)
  refine ⟨h2, h1, fun i hi => ⟨?_, ?_, ?_⟩⟩
  · have c : ¬ (3 * 0 ≤ 3 * i ∧ (3 * i) % 3 = 2 ∧ 3 * i < 3 * n) := by omega
    simpa only [c, if_false] using h3 (3 * i)
  · have c : ¬ (3 * 0 ≤ 3 * i + 1 ∧ (3 * i + 1) % 3 = 2 ∧ 3 * i + 1 < 3 * n) := by omega
    simpa only [c, if_false] using h3 (3 * i + 1)
  · have c : 3 * 0 ≤ 3 * i + 2 ∧ (3 * i + 2) % 3 = 2 ∧ 3 * i + 2 < 3 * n := by omega
    have e1 : 3 * i + 2 - 2 = 3 * i := by omega
    have e2 : 3 * i + 2 - 1 = 3 * i + 1 := by omega
    have e3 : (3 * i + 2) / 3 = i := by omega
    simpa only [c, if_true, and_self, e1, e2, e3] using h3 (3 * i + 2)

/-- Witness of C2, amended: two vertices at the origin, `(0, 0, 7)` and
`(0, 0, 9)`, with the draws `1 / 2` and `1 / 4`; the heights `0.15` and `0.075`
are stored as the float32 numbers `5033165 / 33554432` and
`5033165 / 67108864`, after two draws. -/
theorem createSurfaceHeights_stores_rounded_height_witness :
    ([0, 0, 7, 0, 0, 9] : List ℝ).length = 3 * 2 ∧
      ((createSurfaceHeights Real.sin Real.sqrt float32Round
          (fun k => if k = 0 then 1 / 2 else 1 / 4) [0, 0, 7, 0, 0, 9]).1.length
          = ([0, 0, 7, 0, 0, 9] : List ℝ).length ∧
        (createSurfaceHeights Real.sin Real.sqrt float32Round
          (fun k => if k = 0 then 1 / 2 else 1 / 4) [0, 0, 7, 0, 0, 9]).2 = 2 ∧
        ∀ i : Nat, i < 2 →
          (createSurfaceHeights Real.sin Real.sqrt float32Round
              (fun k => if k = 0 then 1 / 2 else 1 / 4) [0, 0, 7, 0, 0, 9]).1[3 * i]?
            = ([0, 0, 7, 0, 0, 9] : List ℝ)[3 * i]? ∧
          (createSurfaceHeights Real.sin Real.sqrt float32Round
              (fun k => if k = 0 then 1 / 2 else 1 / 4) [0, 0, 7, 0, 0, 9]).1[3 * i + 1]?
            = ([0, 0, 7, 0, 0, 9] : List ℝ)[3 * i + 1]? ∧
          (createSurfaceHeights Real.sin Real.sqrt float32Round
              (fun k => if k = 0 then 1 / 2 else 1 / 4) [0, 0, 7, 0, 0, 9]).1[3 * i + 2]?
            = some (float32Round (terrainHeight Real.sin Real.sqrt
                (([0, 0, 7, 0, 0, 9] : List ℝ).getD (3 * i) 0)
                (([0, 0, 7, 0, 0, 9] : List ℝ).getD (3 * i + 1) 0)
                (if i = 0 then 1 / 2 else 1 / 4)))) ∧
      createSurfaceHeights Real.sin Real.sqrt float32Round
          (fun k => if k = 0 then 1 / 2 else 1 / 4) [0, 0, 7, 0, 0, 9]
        = ([0, 0, 5033165 / 33554432, 0, 0, 5033165 / 67108864], 2) := by
  have h1 : terrainHeight Real.sin Real.sqrt 0 0 (1 / 2) = 3 / 20 := by
    norm_num [terrainHeight]
  have h2 : terrainHeight Real.sin Real.sqrt 0 0 (1 / 4) = 3 / 40 := by
    norm_num [terrainHeight]
  refine ⟨rfl,
    createSurfaceHeights_stores_rounded_height Real.sin Real.sqrt float32Round
      (fun k => if k = 0 then 1 / 2 else 1 / 4) [0, 0, 7, 0, 0, 9] 2 rfl, ?_⟩
  have e1 : float32Round (terrainHeight Real.sin Real.sqrt 0 0 2⁻¹) = 5033165 / 33554432 := by
    rw [← one_div, h1, float32Round_three_twentieths]
  have e2 : float32Round (terrainHeight Real.sin Real.sqrt 0 0 4⁻¹) = 5033165 / 67108864 := by
    rw [← one_div, h2, float32Round_three_fortieths]
  simp [createSurfaceHeights, heightLoop, e1, e2]

/-! ## The follow camera -/

/-- `updateCamera` leaves the simulation state and the character reference as
they are. -/
theorem updateCamera_sim {σ α : Type} [Field α] (eng : Engine σ α) (s : App σ α) :
    (updateCamera eng s).sim = s.sim ∧ (updateCamera eng s).hasCharacter = s.hasCharacter := by
  unfold updateCamera
  split <;> simp [App.emit]

/-- One blend with factor `0.05` scales the squared distance to the blend
target by `0.95 ^ 2`. -/
theorem lerp_distSq (p d : Vec3 ℝ) :
    Vec3.distSq (p.lerp d 0.05) d = 0.95 ^ 2 * Vec3.distSq p d := by
  simp only [Vec3.distSq, Vec3.lerp]
  ring

/-- A squared distance is not negative. -/
theorem distSq_nonneg (a b : Vec3 ℝ) : 0 ≤ Vec3.distSq a b := by
  simp only [Vec3.distSq]
  nlinarith [mul_self_nonneg (a.x - b.x), mul_self_nonneg (a.y - b.y),
    mul_self_nonneg (a.z - b.z)]

/-- The squared distance of two points is zero exactly when they coincide. -/
theorem distSq_eq_zero_iff (a b : Vec3 ℝ) : Vec3.distSq a b = 0 ↔ a = b := by
  constructor
  · intro h
    simp only [Vec3.distSq] at h
    have hx : a.x - b.x = 0 := by
      nlinarith [mul_self_nonneg (a.x - b.x), mul_self_nonneg (a.y - b.y),
        mul_self_nonneg (a.z - b.z)]
    have hy : a.y - b.y = 0 := by
      nlinarith [mul_self_nonneg (a.x - b.x), mul_self_nonneg (a.y - b.y),
        mul_self_nonneg (a.z - b.z)]
    have hz : a.z - b.z = 0 := by
      nlinarith [mul_self_nonneg (a.x - b.x), mul_self_nonneg (a.y - b.y),
        mul_self_nonneg (a.z - b.z)]
    cases a; cases b
    simp only [Vec3.mk.injEq]
    exact ⟨by linarith, by linarith, by linarith⟩
  · rintro rfl
    simp [Vec3.distSq]

/-- After `N` calls of `updateCamera` with the character standing still, the
squared distance of the camera to the target is `(0.95 ^ 2) ^ N` times the
initial one. -/
theorem updateCamera_iterate {σ : Type} (eng : Engine σ ℝ) (s : App σ ℝ)
    (h : s.hasCharacter = true) (N : ℕ) :
    ((updateCamera eng)^[N] s).sim = s.sim ∧
      ((updateCamera eng)^[N] s).hasCharacter = true ∧
      Vec3.distSq ((updateCamera eng)^[N] s).camera.position
          (desiredPosition (eng.getPosition s.sim))
        = (0.95 ^ 2) ^ N *
          Vec3.distSq s.camera.position (desiredPosition (eng.getPosition s.sim)) := by
  induction N with
  | zero => simp [h]
  | succ n ih =>
    obtain ⟨h1, h2, h3⟩ := ih
    rw [Function.iterate_succ_apply']
    refine ⟨?_, ?_, ?_⟩
    · rw [(updateCamera_sim eng _).1, h1]
    · rw [(updateCamera_sim eng _).2, h2]
    · have : (updateCamera eng ((updateCamera eng)^[n] s)).camera.position
          = ((updateCamera eng)^[n] s).camera.position.lerp
              (desiredPosition (eng.getPosition s.sim)) 0.05 := by
        simp [updateCamera, h2, h1, App.emit]
      rw [this, lerp_distSq, h3, pow_succ]
      ring

/-- Counterexample to C3 as stated: with the character at the origin and the
camera already at the target `(0, 5, 10)`, a call of `updateCamera` does not
decrease the distance to the target (it stays `0`). -/
theorem camera_at_target_distance_not_decreasing :
    ¬ (Real.sqrt (Vec3.distSq
          (updateCamera (stillEngine ℝ) (startState ⟨0, 5, 10⟩ ⟨0, 0, 0⟩)).camera.position
          (desiredPosition ⟨0, 0, 0⟩))
        < Real.sqrt (Vec3.distSq (startState (⟨0, 5, 10⟩ : Vec3 ℝ) ⟨0, 0, 0⟩).camera.position
          (desiredPosition ⟨0, 0, 0⟩))) := by
  simp [updateCamera, startState, stillEngine, App.emit, Vec3.lerp, desiredPosition,
    Vec3.distSq]

/-- Without rounding: with the character standing still, frame `N + 1` of
`updateCamera` leaves the camera strictly closer (in Euclidean distance) to the
target than frame `N` did exactly when the camera did not start at the target. -/
theorem exact_camera_distance_decreases_iff {σ : Type} (eng : Engine σ ℝ) (s : App σ ℝ)
    (h : s.hasCharacter = true) (N : ℕ) :
    Real.sqrt (Vec3.distSq ((updateCamera eng)^[N + 1] s).camera.position
          (desiredPosition (eng.getPosition s.sim)))
        < Real.sqrt (Vec3.distSq ((updateCamera eng)^[N] s).camera.position
          (desiredPosition (eng.getPosition s.sim)))
      ↔ s.camera.position ≠ desiredPosition (eng.getPosition s.sim) := by
  rw [(updateCamera_iterate eng s h (N + 1)).2.2, (updateCamera_iterate eng s h N).2.2]
  have hD := distSq_nonneg s.camera.position (desiredPosition (eng.getPosition s.sim))
  have hpos : (0 : ℝ) < (0.95 ^ 2) ^ N := by positivity
  rw [Ne, ← distSq_eq_zero_iff]
  constructor
  · intro hlt h0
    rw [h0] at hlt
    simp at hlt
  · intro hne
    have hD' : 0 < Vec3.distSq s.camera.position (desiredPosition (eng.getPosition s.sim)) :=
      lt_of_le_of_ne hD (Ne.symm hne)
    apply Real.sqrt_lt_sqrt (by positivity)
    rw [pow_succ]
    have : (0.95 : ℝ) ^ 2 < 1 := by norm_num
    nlinarith [mul_pos hpos hD']

/-! ### Rounded arithmetic -/

/-- A rounding fixes zero. -/
theorem IsRounding.zero {α : Type} [LinearOrderedField α] {fl : α → α} (h : IsRounding fl) :
    fl 0 = 0 := by
  have h1 := h.le_double 0 le_rfl
  have h2 := h.double_le 0 le_rfl
  simp only [mul_zero] at h1 h2
  exact le_antisymm h1 h2

/-- The rounded blend factor `fl 0.05` lies in `[0, 1 / 4]`. -/
theorem IsRounding.alpha_bounds {α : Type} [LinearOrderedField α] {fl : α → α}
    (h : IsRounding fl) : 0 ≤ fl 0.05 ∧ fl 0.05 ≤ 1 / 4 := by
  constructor
  · have := h.mono 0 0.05 (by norm_num)
    rwa [h.zero] at this
  · have := h.le_double 0.05 (by norm_num)
    have h2 : (2 : α) * 0.05 ≤ 1 / 4 := by norm_num
    exact le_trans this h2

/-- One coordinate of the rounded blend stays between the old value and the
target: it neither moves away from the target nor passes it. -/
theorem lerpFl_coord_between {α : Type} [LinearOrderedField α] {fl : α → α}
    (h : IsRounding fl) (p d a : α) (hp : fl p = p) (hd : fl d = d) (ha0 : 0 ≤ a)
    (ha1 : a ≤ 1 / 4) :
    (p ≤ d → p ≤ fl (p + fl (fl (d - p) * a)) ∧ fl (p + fl (fl (d - p) * a)) ≤ d) ∧
      (d ≤ p → d ≤ fl (p + fl (fl (d - p) * a)) ∧ fl (p + fl (fl (d - p) * a)) ≤ p) := by
  constructor
  · intro hpd
    have hg : 0 ≤ d - p := sub_nonneg.mpr hpd
    have t0 : 0 ≤ fl (d - p) := by
      have := h.mono 0 (d - p) hg
      rwa [h.zero] at this
    have t1 : fl (d - p) ≤ 2 * (d - p) := h.le_double _ hg
    have q0 : 0 ≤ fl (d - p) * a := mul_nonneg t0 ha0
    have m0 : 0 ≤ fl (fl (d - p) * a) := by
      have := h.mono 0 _ q0
      rwa [h.zero] at this
    have m1 : fl (fl (d - p) * a) ≤ 2 * (fl (d - p) * a) := h.le_double _ q0
    have m2 : fl (fl (d - p) * a) ≤ d - p := by
      have : fl (d - p) * a ≤ (2 * (d - p)) * (1 / 4) :=
        mul_le_mul t1 ha1 ha0 (by linarith)
      linarith
    constructor
    · have := h.mono p (p + fl (fl (d - p) * a)) (by linarith)
      rwa [hp] at this
    · have := h.mono (p + fl (fl (d - p) * a)) d (by linarith)
      rwa [hd] at this
  · intro hdp
    have hg : d - p ≤ 0 := sub_nonpos.mpr hdp
    have t0 : fl (d - p) ≤ 0 := by
      have := h.mono (d - p) 0 hg
      rwa [h.zero] at this
    have t1 : 2 * (d - p) ≤ fl (d - p) := h.double_le _ hg
    have q0 : fl (d - p) * a ≤ 0 := mul_nonpos_of_nonpos_of_nonneg t0 ha0
    have m0 : fl (fl (d - p) * a) ≤ 0 := by
      have := h.mono _ 0 q0
      rwa [h.zero] at this
    have m1 : 2 * (fl (d - p) * a) ≤ fl (fl (d - p) * a) := h.double_le _ q0
    have m2 : d - p ≤ fl (fl (d - p) * a) := by
      have : (-fl (d - p)) * a ≤ (-(2 * (d - p))) * (1 / 4) :=
        mul_le_mul (by linarith) ha1 ha0 (by linarith)
      linarith
    constructor
    · have := h.mono d (p + fl (fl (d - p) * a)) (by linarith)
      rwa [hd] at this
    · have := h.mono (p + fl (fl (d - p) * a)) p (by linarith)
      rwa [hp] at this

/-- The squared gap of one coordinate to the target does not grow under the
rounded blend, and shrinks when the coordinate changes. -/
theorem lerpFl_coord_sq {α : Type} [LinearOrderedField α] {fl : α → α}
    (h : IsRounding fl) (p d a : α) (hp : fl p = p) (hd : fl d = d) (ha0 : 0 ≤ a)
    (ha1 : a ≤ 1 / 4) :
    (fl (p + fl (fl (d - p) * a)) - d) * (fl (p + fl (fl (d - p) * a)) - d)
        ≤ (p - d) * (p - d) ∧
      (fl (p + fl (fl (d - p) * a)) ≠ p →
        (fl (p + fl (fl (d - p) * a)) - d) * (fl (p + fl (fl (d - p) * a)) - d)
          < (p - d) * (p - d)) := by
  obtain ⟨h1, h2⟩ := lerpFl_coord_between h p d a hp hd ha0 ha1
  rcases le_total p d with hpd | hdp
  · obtain ⟨b1, b2⟩ := h1 hpd
    constructor
    · nlinarith
    · intro hne
      have : p < fl (p + fl (fl (d - p) * a)) := lt_of_le_of_ne b1 (Ne.symm hne)
      nlinarith
  · obtain ⟨b1, b2⟩ := h2 hdp
    constructor
    · nlinarith
    · intro hne
      have : fl (p + fl (fl (d - p) * a)) < p := lt_of_le_of_ne b2 hne
      nlinarith

/-- The rounded blend of representable vectors is representable, does not
increase the squared distance to the target, and decreases it exactly when it
changes the vector. -/
theorem lerpFl_distSq {α : Type} [LinearOrderedField α] {fl : α → α} (h : IsRounding fl)
    (p d : Vec3 α) (hp : p.representable fl) (hd : d.representable fl) :
    (p.lerpFl fl d (fl 0.05)).representable fl ∧
      Vec3.distSq (p.lerpFl fl d (fl 0.05)) d ≤ Vec3.distSq p d ∧
      (Vec3.distSq (p.lerpFl fl d (fl 0.05)) d < Vec3.distSq p d
        ↔ p.lerpFl fl d (fl 0.05) ≠ p) := by
  obtain ⟨a0, a1⟩ := h.alpha_bounds
  obtain ⟨x1, x2⟩ := lerpFl_coord_sq h p.x d.x (fl 0.05) hp.1 hd.1 a0 a1
  obtain ⟨y1, y2⟩ := lerpFl_coord_sq h p.y d.y (fl 0.05) hp.2.1 hd.2.1 a0 a1
  obtain ⟨z1, z2⟩ := lerpFl_coord_sq h p.z d.z (fl 0.05) hp.2.2 hd.2.2 a0 a1
  refine ⟨⟨h.idem _, h.idem _, h.idem _⟩, ?_, ?_⟩
  · simp only [Vec3.distSq, Vec3.lerpFl]
    linarith
  · constructor
    · intro hlt heq
      rw [heq] at hlt
      exact lt_irrefl _ hlt
    · intro hne
      have hcases : fl (p.x + fl (fl (d.x - p.x) * fl 0.05)) ≠ p.x ∨
          fl (p.y + fl (fl (d.y - p.y) * fl 0.05)) ≠ p.y ∨
          fl (p.z + fl (fl (d.z - p.z) * fl 0.05)) ≠ p.z := by
        by_contra hall
        push_neg at hall
        apply hne
        cases p
        simp only [Vec3.lerpFl, Vec3.mk.injEq]
        exact hall
      simp only [Vec3.distSq, Vec3.lerpFl]
      rcases hcases with hx | hy | hz
      · have := x2 hx
        linarith
      · have := y2 hy
        linarith
      · have := z2 hz
        linarith

/-- The rounded target of a representable character position is
representable. -/
theorem desiredPositionFl_representable {α : Type} [LinearOrderedField α] {fl : α → α}
    (h : IsRounding fl) (c : Vec3 α) (hc : c.representable fl) :
    (desiredPositionFl fl c).representable fl :=
  ⟨hc.1, h.idem _, h.idem _⟩

/-- One call of `updateCameraFl` with a character: the simulation state and the
character stay, the camera position is the rounded blend. -/
theorem updateCameraFl_step {σ α : Type} [Field α] (fl : α → α) (eng : Engine σ α)
    (s : App σ α) (h : s.hasCharacter = true) :
    (updateCameraFl fl eng s).sim = s.sim ∧
      (updateCameraFl fl eng s).hasCharacter = true ∧
      (updateCameraFl fl eng s).camera.position
        = s.camera.position.lerpFl fl (desiredPositionFl fl (eng.getPosition s.sim))
            (fl 0.05) := by
  simp [updateCameraFl, h, App.emit]

/-- What `N` calls of `updateCameraFl` keep: the simulation state, the
character, and a representable camera position. -/
theorem updateCameraFl_iterate {σ α : Type} [LinearOrderedField α] {fl : α → α}
    (hfl : IsRounding fl) (eng : Engine σ α) (s : App σ α) (h : s.hasCharacter = true)
    (hcam : s.camera.position.representable fl)
    (hchar : (eng.getPosition s.sim).representable fl) (N : ℕ) :
    ((updateCameraFl fl eng)^[N] s).sim = s.sim ∧
      ((updateCameraFl fl eng)^[N] s).hasCharacter = true ∧
      ((updateCameraFl fl eng)^[N] s).camera.position.representable fl := by
  induction N with
  | zero => exact ⟨rfl, h, hcam⟩
  | succ n ih =>
    obtain ⟨h1, h2, h3⟩ := ih
    obtain ⟨g1, g2, g3⟩ := updateCameraFl_step fl eng ((updateCameraFl fl eng)^[n] s) h2
    rw [Function.iterate_succ_apply']
    refine ⟨by rw [g1, h1], g2, ?_⟩
    rw [g3, h1]
    exact (lerpFl_distSq hfl _ _ h3 (desiredPositionFl_representable hfl _ hchar)).1

/-- Exact arithmetic is the rounding that changes nothing. -/
theorem id_isRounding {α : Type} [LinearOrderedField α] : IsRounding (id : α → α) :=
  ⟨fun _ _ h => h, fun _ => rfl, fun x hx => by simp only [id]; linarith,
    fun x hx => by simp only [id]; linarith⟩

/-- With the rounding that changes nothing, `updateCameraFl` is `updateCamera`. -/
theorem updateCameraFl_id {σ α : Type} [Field α] (eng : Engine σ α) (s : App σ α) :
    updateCameraFl id eng s = updateCamera eng s := by
  simp [updateCameraFl, updateCamera, Vec3.lerpFl, Vec3.lerp, desiredPositionFl,
    desiredPosition]

/-- Rounding to the grid of multiples of `1 / 64` is a rounding. -/
theorem gridRound_isRounding {α : Type} [LinearOrderedField α] [FloorRing α] :
    IsRounding (gridRound : α → α) := by
  refine ⟨?_, ?_, ?_, ?_⟩
  · intro x y hxy
    unfold gridRound
    have : ⌊x * 64 + 1 / 2⌋ ≤ ⌊y * 64 + 1 / 2⌋ := Int.floor_mono (by linarith)
    have hc : ((⌊x * 64 + 1 / 2⌋ : ℤ) : α) ≤ ((⌊y * 64 + 1 / 2⌋ : ℤ) : α) := by
      exact_mod_cast this
    exact div_le_div_of_nonneg_right hc (by norm_num)
  · intro x
    unfold gridRound
    have : ⌊((⌊x * 64 + 1 / 2⌋ : α) / 64) * 64 + 1 / 2⌋ = ⌊x * 64 + 1 / 2⌋ := by
      rw [div_mul_cancel₀ _ (by norm_num : (64 : α) ≠ 0), Int.floor_int_add]
      have : ⌊(1 / 2 : α)⌋ = 0 := by
        rw [Int.floor_eq_iff]; constructor <;> norm_num
      rw [this, add_zero]
    rw [this]
  · intro x hx
    unfold gridRound
    by_cases hs : x * 64 + 1 / 2 < 1
    · have : ⌊x * 64 + 1 / 2⌋ = 0 := by
        rw [Int.floor_eq_iff]; constructor
        · push_cast; linarith
        · push_cast; linarith
      rw [this]; simp; linarith
    · push_neg at hs
      have := Int.floor_le (x * 64 + 1 / 2)
      rw [div_le_iff₀ (by norm_num : (0 : α) < 64)]
      linarith
  · intro x hx
    unfold gridRound
    by_cases hs : 0 ≤ x * 64 + 1 / 2
    · have : (0 : ℤ) ≤ ⌊x * 64 + 1 / 2⌋ := Int.floor_nonneg.mpr hs
      have hc : (0 : α) ≤ ((⌊x * 64 + 1 / 2⌋ : ℤ) : α) := by exact_mod_cast this
      have : (0 : α) ≤ (⌊x * 64 + 1 / 2⌋ : α) / 64 := div_nonneg hc (by norm_num)
      linarith
    · push_neg at hs
      have := Int.lt_floor_add_one (x * 64 + 1 / 2)
      rw [le_div_iff₀ (by norm_num : (0 : α) < 64)]
      linarith

/-- Every integer lies on the grid. -/
theorem gridRound_intCast {α : Type} [LinearOrderedField α] [FloorRing α] (k : ℤ) :
    gridRound (k : α) = k := by
  unfold gridRound
  have h : ⌊(k : α) * 64 + 1 / 2⌋ = k * 64 := by
    rw [Int.floor_eq_iff]
    push_cast
    constructor <;> linarith
  rw [h]
  push_cast
  field_simp

/-- C3, amended: in rounded arithmetic, with the character standing still and
camera and character at representable positions, frame `N + 1` of
`updateCamera` never leaves the camera farther from the target than frame `N`
did; it leaves it strictly closer exactly when it moved the camera; and a
camera at the target stays there. The distance is the Euclidean distance of
the two stored positions as a real number. -/
theorem camera_distance_never_increases {σ : Type} (fl : ℝ → ℝ) (eng : Engine σ ℝ)
    (s : App σ ℝ) (N : ℕ) (hfl : IsRounding fl) (h : s.hasCharacter = true)
    (hcam : s.camera.position.representable fl)
    (hchar : (eng.getPosition s.sim).representable fl) :
    Real.sqrt (Vec3.distSq ((updateCameraFl fl eng)^[N + 1] s).camera.position
          (desiredPositionFl fl (eng.getPosition s.sim)))
        ≤ Real.sqrt (Vec3.distSq ((updateCameraFl fl eng)^[N] s).camera.position
          (desiredPositionFl fl (eng.getPosition s.sim))) ∧
      (Real.sqrt (Vec3.distSq ((updateCameraFl fl eng)^[N + 1] s).camera.position
            (desiredPositionFl fl (eng.getPosition s.sim)))
          < Real.sqrt (Vec3.distSq ((updateCameraFl fl eng)^[N] s).camera.position
            (desiredPositionFl fl (eng.getPosition s.sim)))
        ↔ ((updateCameraFl fl eng)^[N + 1] s).camera.position
            ≠ ((updateCameraFl fl eng)^[N] s).camera.position) ∧
      (((updateCameraFl fl eng)^[N] s).camera.position
          = desiredPositionFl fl (eng.getPosition s.sim) →
        ((updateCameraFl fl eng)^[N + 1] s).camera.position
          = desiredPositionFl fl (eng.getPosition s.sim)) := by
  obtain ⟨h1, h2, h3⟩ := updateCameraFl_iterate hfl eng s h hcam hchar N
  obtain ⟨-, -, g3⟩ := updateCameraFl_step fl eng ((updateCameraFl fl eng)^[N] s) h2
  rw [h1] at g3
  have hd := desiredPositionFl_representable hfl _ hchar
  obtain ⟨-, k2, k3⟩ := lerpFl_distSq hfl _ _ h3 hd
  rw [Function.iterate_succ_apply', g3]
  refine ⟨Real.sqrt_le_sqrt k2, ?_, ?_⟩
  · rw [← k3]
    constructor
    · intro hlt
      by_contra hnot
      push_neg at hnot
      exact absurd (Real.sqrt_le_sqrt hnot) (not_le.mpr hlt)
    · intro hlt
      exact Real.sqrt_lt_sqrt (distSq_nonneg _ _) hlt
  · intro heq
    by_contra hne
    have hmoved : ((updateCameraFl fl eng)^[N] s).camera.position.lerpFl fl
        (desiredPositionFl fl (eng.getPosition s.sim)) (fl 0.05)
        ≠ ((updateCameraFl fl eng)^[N] s).camera.position := by
      rw [heq] at hne ⊢
      exact hne
    have hlt := k3.mpr hmoved
    rw [heq] at hlt
    have h0 : Vec3.distSq (desiredPositionFl fl (eng.getPosition s.sim))
        (desiredPositionFl fl (eng.getPosition s.sim)) = 0 :=
      (distSq_eq_zero_iff _ _).mpr rfl
    rw [h0] at hlt
    exact absurd (distSq_nonneg _ _) (not_le.mpr hlt)

/-- Witness of C3, amended: rounding to the grid of multiples of `1 / 64`, the
start-up values, camera at `(0, 5, 15)` and character at `(0, -3, 0)`, at the
first frame. -/
theorem camera_distance_never_increases_witness :
    IsRounding (gridRound : ℝ → ℝ) ∧
      (startState (⟨0, 5, 15⟩ : Vec3 ℝ) ⟨0, -3, 0⟩).hasCharacter = true ∧
      (startState (⟨0, 5, 15⟩ : Vec3 ℝ) ⟨0, -3, 0⟩).camera.position.representable gridRound ∧
      ((stillEngine ℝ).getPosition
        (startState (⟨0, 5, 15⟩ : Vec3 ℝ) ⟨0, -3, 0⟩).sim).representable gridRound ∧
      (Real.sqrt (Vec3.distSq
            ((updateCameraFl gridRound (stillEngine ℝ))^[0 + 1]
              (startState ⟨0, 5, 15⟩ ⟨0, -3, 0⟩)).camera.position
            (desiredPositionFl gridRound ((stillEngine ℝ).getPosition
              (startState (⟨0, 5, 15⟩ : Vec3 ℝ) ⟨0, -3, 0⟩).sim)))
          ≤ Real.sqrt (Vec3.distSq
            ((updateCameraFl gridRound (stillEngine ℝ))^[0]
              (startState ⟨0, 5, 15⟩ ⟨0, -3, 0⟩)).camera.position
            (desiredPositionFl gridRound ((stillEngine ℝ).getPosition
              (startState (⟨0, 5, 15⟩ : Vec3 ℝ) ⟨0, -3, 0⟩).sim))) ∧
        (Real.sqrt (Vec3.distSq
              ((updateCameraFl gridRound (stillEngine ℝ))^[0 + 1]
                (startState ⟨0, 5, 15⟩ ⟨0, -3, 0⟩)).camera.position
              (desiredPositionFl gridRound ((stillEngine ℝ).getPosition
                (startState (⟨0, 5, 15⟩ : Vec3 ℝ) ⟨0, -3, 0⟩).sim)))
            < Real.sqrt (Vec3.distSq
              ((updateCameraFl gridRound (stillEngine ℝ))^[0]
                (startState ⟨0, 5, 15⟩ ⟨0, -3, 0⟩)).camera.position
              (desiredPositionFl gridRound ((stillEngine ℝ).getPosition
                (startState (⟨0, 5, 15⟩ : Vec3 ℝ) ⟨0, -3, 0⟩).sim)))
          ↔ ((updateCameraFl gridRound (stillEngine ℝ))^[0 + 1]
                (startState ⟨0, 5, 15⟩ ⟨0, -3, 0⟩)).camera.position
              ≠ ((updateCameraFl gridRound (stillEngine ℝ))^[0]
                (startState ⟨0, 5, 15⟩ ⟨0, -3, 0⟩)).camera.position) ∧
        (((updateCameraFl gridRound (stillEngine ℝ))^[0]
              (startState ⟨0, 5, 15⟩ ⟨0, -3, 0⟩)).camera.position
            = desiredPositionFl gridRound ((stillEngine ℝ).getPosition
                (startState (⟨0, 5, 15⟩ : Vec3 ℝ) ⟨0, -3, 0⟩).sim) →
          ((updateCameraFl gridRound (stillEngine ℝ))^[0 + 1]
              (startState ⟨0, 5, 15⟩ ⟨0, -3, 0⟩)).camera.position
            = desiredPositionFl gridRound ((stillEngine ℝ).getPosition
                (startState (⟨0, 5, 15⟩ : Vec3 ℝ) ⟨0, -3, 0⟩).sim))) := by
  have hcam : (startState (⟨0, 5, 15⟩ : Vec3 ℝ) ⟨0, -3, 0⟩).camera.position.representable
      gridRound :=
    ⟨by simpa using gridRound_intCast (α := ℝ) 0, by simpa using gridRound_intCast (α := ℝ) 5,
      by simpa using gridRound_intCast (α := ℝ) 15⟩
  have hchar : ((stillEngine ℝ).getPosition
      (startState (⟨0, 5, 15⟩ : Vec3 ℝ) ⟨0, -3, 0⟩).sim).representable gridRound :=
    ⟨by simpa using gridRound_intCast (α := ℝ) 0,
      by simpa using gridRound_intCast (α := ℝ) (-3),
      by simpa using gridRound_intCast (α := ℝ) 0⟩
  exact ⟨gridRound_isRounding, rfl, hcam, hchar,
    camera_distance_never_increases gridRound (stillEngine ℝ)
      (startState ⟨0, 5, 15⟩ ⟨0, -3, 0⟩) 0 gridRound_isRounding rfl hcam hchar⟩

/-- The value of `gridRound`: `k / 64` when `x * 64 + 1 / 2` lies in
`[k, k + 1)`. -/
theorem gridRound_eq {α : Type} [LinearOrderedField α] [FloorRing α] (x : α) (k : ℤ)
    (h1 : (k : α) ≤ x * 64 + 1 / 2) (h2 : x * 64 + 1 / 2 < (k : α) + 1) :
    gridRound x = (k : α) / 64 := by
  unfold gridRound
  have h : ⌊x * 64 + 1 / 2⌋ = k := by
    rw [Int.floor_eq_iff]
    exact ⟨h1, h2⟩
  rw [h]

/-- Rounding can stop the camera short of the target, which is why the
distance need not decrease strictly: on the grid of multiples of `1 / 64`, a
camera at `(0, 129 / 64, 10)` with the target at `(0, 2, 10)` is left where it
is, one grid step away from the target. -/
theorem camera_stalls_short_of_target_on_grid :
    (updateCameraFl gridRound (stillEngine ℝ)
        (startState ⟨0, 129 / 64, 10⟩ ⟨0, -3, 0⟩)).camera.position = ⟨0, 129 / 64, 10⟩ ∧
      desiredPositionFl gridRound ((stillEngine ℝ).getPosition
        (startState (⟨0, 129 / 64, 10⟩ : Vec3 ℝ) ⟨0, -3, 0⟩).sim) = ⟨0, 2, 10⟩ := by
  have e0 : gridRound (0 : ℝ) = 0 := by simpa using gridRound_intCast (α := ℝ) 0
  have e2 : gridRound (2 : ℝ) = 2 := by simpa using gridRound_intCast (α := ℝ) 2
  have e10 : gridRound (10 : ℝ) = 10 := by simpa using gridRound_intCast (α := ℝ) 10
  have ea : gridRound (0.05 : ℝ) = 3 / 64 := by
    rw [gridRound_eq (0.05 : ℝ) 3 (by norm_num) (by norm_num)]
    norm_num
  have eg : gridRound (2 - 129 / 64 : ℝ) = -1 / 64 := by
    rw [gridRound_eq (2 - 129 / 64 : ℝ) (-1) (by norm_num) (by norm_num)]
    norm_num
  have em : gridRound (-1 / 64 * (3 / 64) : ℝ) = 0 := by
    rw [gridRound_eq (-1 / 64 * (3 / 64) : ℝ) 0 (by norm_num) (by norm_num)]
    norm_num
  have ep : gridRound (129 / 64 : ℝ) = 129 / 64 := by
    rw [gridRound_eq (129 / 64 : ℝ) 129 (by norm_num) (by norm_num)]
    norm_num
  have hy : gridRound ((-3 : ℝ) + 5) = 2 := by
    rw [show ((-3 : ℝ) + 5) = 2 by norm_num, e2]
  have hz : gridRound ((0 : ℝ) + 10) = 10 := by
    rw [zero_add, e10]
  have hd : desiredPositionFl gridRound ((stillEngine ℝ).getPosition
      (startState (⟨0, 129 / 64, 10⟩ : Vec3 ℝ) ⟨0, -3, 0⟩).sim) = ⟨0, 2, 10⟩ := by
    simp only [desiredPositionFl, stillEngine, startState, hy, hz]
  refine ⟨?_, hd⟩
  have hstep := (updateCameraFl_step gridRound (stillEngine ℝ)
    (startState (⟨0, 129 / 64, 10⟩ : Vec3 ℝ) ⟨0, -3, 0⟩) rfl).2.2
  rw [hstep, hd]
  simp only [Vec3.lerpFl, startState, ea, sub_self, e0, zero_mul, add_zero, e10, eg, em, ep]

/-- C7: one call of `updateCamera` sets the camera position to
`p + 0.05 * (d - p)` componentwise, with `d = (c.x, c.y + 5, c.z + 10)`, and
leaves the character position as it is; in a frame with any elapsed time
`deltaTime` the camera ends at that same fixed-factor blend toward the
character position of the frame, so the blend is not scaled by the time. -/
theorem updateCamera_blend {σ α : Type} [Field α] (eng : Engine σ α) (s : App σ α)
    (deltaTime : α) (h : s.hasCharacter = true) :
    (updateCamera eng s).camera.position =
        { x := s.camera.position.x + 0.05 * ((eng.getPosition s.sim).x - s.camera.position.x)
          y := s.camera.position.y
            + 0.05 * ((eng.getPosition s.sim).y + 5 - s.camera.position.y)
          z := s.camera.position.z
            + 0.05 * ((eng.getPosition s.sim).z + 10 - s.camera.position.z) } ∧
      eng.getPosition (updateCamera eng s).sim = eng.getPosition s.sim ∧
      (animate eng deltaTime s).camera.position =
        s.camera.position.lerp
          (desiredPosition (eng.getPosition (animate eng deltaTime s).sim)) 0.05 := by
  refine ⟨?_, ?_, ?_⟩
  · simp [updateCamera, h, App.emit, Vec3.lerp, desiredPosition, mul_comm]
  · rw [(updateCamera_sim eng s).1]
  · cases hW : s.hasWorld <;> cases hS : s.stars <;>
      simp [animate, updateCamera, updatePhysics, updateStars, h, hW, hS, App.emit]

/-- Witness of C7: the start-up values, camera at `(0, 5, 15)` and character at
`(0, -3, 0)`; the camera moves to `(0, 97 / 20, 59 / 4)` whether the elapsed
time is `1 / 60` or anything else. -/
theorem updateCamera_blend_witness :
    (startState (⟨0, 5, 15⟩ : Vec3 ℚ) ⟨0, -3, 0⟩).hasCharacter = true ∧
      (updateCamera (stillEngine ℚ) (startState ⟨0, 5, 15⟩ ⟨0, -3, 0⟩)).camera.position
        = ⟨0, 97 / 20, 59 / 4⟩ ∧
      (stillEngine ℚ).getPosition
          (updateCamera (stillEngine ℚ) (startState ⟨0, 5, 15⟩ ⟨0, -3, 0⟩)).sim
        = ⟨0, -3, 0⟩ ∧
      (animate (stillEngine ℚ) (1 / 60) (startState ⟨0, 5, 15⟩ ⟨0, -3, 0⟩)).camera.position
        = ⟨0, 97 / 20, 59 / 4⟩ := by
  have key := updateCamera_blend (stillEngine ℚ) (startState ⟨0, 5, 15⟩ ⟨0, -3, 0⟩)
    (1 / 60) rfl
  refine ⟨rfl, ?_, ?_, ?_⟩
  · rw [key.1]
    norm_num [startState, stillEngine]
  · rw [key.2.1]
    rfl
  · rw [key.2.2]
    norm_num [animate, updateCamera, updatePhysics, updateStars, App.emit, startState,
      stillEngine, Vec3.lerp, desiredPosition]

/-! ## The frame callback -/

/-- C8: every invocation of `animate` issues exactly one render call; and when
the world, the character and the stars exist it performs, in this order, one
physics step with the elapsed time, one character update with the current key
flags and the same elapsed time, one camera follow update, one star rotation
that adds `deltaTime * 0.0001` to the star yaw, one tween update and the render
call (after rescheduling itself). -/
theorem animate_frame_effects {σ α : Type} [Field α] (eng : Engine σ α) (deltaTime : α)
    (s : App σ α) :
    renderCount (animate eng deltaTime s).trace = renderCount s.trace + 1 ∧
      (s.hasWorld = true → s.hasCharacter = true → ∀ yaw : α, s.stars = some yaw →
        (animate eng deltaTime s).trace = s.trace ++
            [Effect.requestAnimationFrame, Effect.worldStep deltaTime,
             Effect.characterUpdate s.keys deltaTime, Effect.cameraFollow,
             Effect.starsRotate deltaTime, Effect.tweenUpdate, Effect.render] ∧
          (animate eng deltaTime s).sim
            = eng.characterUpdate (eng.worldStep s.sim deltaTime) s.keys deltaTime ∧
          (animate eng deltaTime s).stars = some (yaw + deltaTime * 0.0001)) := by
  constructor
  · cases hW : s.hasWorld <;> cases hC : s.hasCharacter <;> cases hS : s.stars <;>
      simp [animate, updateCamera, updatePhysics, updateStars, hW, hC, hS, App.emit,
        renderCount, List.filter_append]
  · intro hW hC yaw hS
    simp [animate, updateCamera, updatePhysics, updateStars, hW, hC, hS, App.emit]

/-- Witness of C8: one frame of `1 / 50` seconds from the start-up state; the
trace holds the seven effects in order, one of them a render call, and the star
yaw goes from `0` to `1 / 500000`. -/
theorem animate_frame_effects_witness :
    renderCount (animate (stillEngine ℚ) (1 / 50)
        (startState ⟨0, 5, 15⟩ ⟨0, -3, 0⟩)).trace = 1 ∧
      (animate (stillEngine ℚ) (1 / 50) (startState ⟨0, 5, 15⟩ ⟨0, -3, 0⟩)).trace =
        [Effect.requestAnimationFrame, Effect.worldStep (1 / 50),
         Effect.characterUpdate Keys.initial (1 / 50), Effect.cameraFollow,
         Effect.starsRotate (1 / 50), Effect.tweenUpdate, Effect.render] ∧
      (animate (stillEngine ℚ) (1 / 50) (startState ⟨0, 5, 15⟩ ⟨0, -3, 0⟩)).stars
        = some (1 / 500000) := by
  have key := animate_frame_effects (stillEngine ℚ) (1 / 50)
    (startState ⟨0, 5, 15⟩ ⟨0, -3, 0⟩)
  obtain ⟨hr, ht, -, hy⟩ := And.intro key.1 (key.2 rfl rfl 0 rfl)
  refine ⟨?_, ?_, ?_⟩
  · rw [hr]
    rfl
  · rw [ht]
    rfl
  · rw [hy]
    norm_num

/-! ## Physics set-up -/

/-- C6: after `PhysicsWorld` is constructed the contact-material registry
holds exactly one rule, keyed on `moonMaterial` and `characterMaterial`; looking
the pair up in either order returns that rule, with friction `0.3`, restitution
`0.2`, contact stiffness `1e8` and contact relaxation `3`. -/
theorem contact_registry_single_rule (idCounter : Nat) :
    ∃ (rule : ContactMaterial) (moon character : Material),
      (PhysicsWorld.create idCounter).1.world.contactmaterials = [rule] ∧
      (PhysicsWorld.create idCounter).1.moonMaterial = some moon ∧
      (PhysicsWorld.create idCounter).1.characterMaterial = some character ∧
      rule.materials = (moon, character) ∧
      (PhysicsWorld.create idCounter).1.world.getContactMaterial moon character = some rule ∧
      (PhysicsWorld.create idCounter).1.world.getContactMaterial character moon = some rule ∧
      rule.friction = 0.3 ∧ rule.restitution = 0.2 ∧
      rule.contactEquationStiffness = 1e8 ∧ rule.contactEquationRelaxation = 3 := by
  refine ⟨_, _, _, rfl, rfl, rfl, rfl, ?_, ?_, rfl, rfl, rfl, rfl⟩
  · simp [PhysicsWorld.create, PhysicsWorld.setupWorld, PhysicsWorld.createGround,
      World.getContactMaterial, World.addContactMaterial, World.add, World.create,
      Material.create, tupleKey, List.lookup]
  · simp [PhysicsWorld.create, PhysicsWorld.setupWorld, PhysicsWorld.createGround,
      World.getContactMaterial, World.addContactMaterial, World.add, World.create,
      Material.create, tupleKey, List.lookup]

/-- C9, the code at start-up: the world holds two static planes, both of mass
`0` and both turned by `-π/2` about the X axis like the mesh; the plane of
`MoonSurface.setupPhysics` sits at the mesh height `y = -5`, the plane of
`PhysicsWorld.createGround` sits at `y = 0` and so does not match the mesh. -/
theorem createGround_plane_not_at_mesh_height (idCounter : Nat) :
    ∃ ground moon : Body,
      (setup idCounter).world.bodies = [ground, moon] ∧
      (setup idCounter).physics.groundBody = some ground ∧
      (setup idCounter).moonBody = moon ∧
      ground.mass = 0 ∧ moon.mass = 0 ∧
      ground.quaternion = Orientation.axisAngle ⟨1, 0, 0⟩ (-1 / 2) ∧
      moon.matchesMesh MoonSurface.meshPose ∧
      ground.position.y = 0 ∧
      ¬ ground.matchesMesh MoonSurface.meshPose := by
  refine ⟨_, _, rfl, rfl, rfl, rfl, rfl, rfl, ⟨rfl, rfl⟩, rfl, ?_⟩
  intro hm
  have hy := hm.2
  norm_num [PhysicsWorld.create, PhysicsWorld.setupWorld, PhysicsWorld.createGround,
    Material.create, Body.create, MoonSurface.meshPose] at hy

/-- C10, the code at start-up: the material of the body that
`MoonSurface.setupPhysics` adds has the name of `moonMaterial` but is another
object, and looking up the pair of that material and `characterMaterial`, in
either order, finds no rule. -/
theorem setupPhysics_material_is_not_moonMaterial (idCounter : Nat) :
    ∃ moon character bodyMaterial : Material,
      (setup idCounter).physics.moonMaterial = some moon ∧
      (setup idCounter).physics.characterMaterial = some character ∧
      (setup idCounter).moonBody.material = some bodyMaterial ∧
      (setup idCounter).moonBody ∈ (setup idCounter).world.bodies ∧
      bodyMaterial.name = moon.name ∧
      bodyMaterial ≠ moon ∧
      (setup idCounter).world.getContactMaterial bodyMaterial character = none ∧
      (setup idCounter).world.getContactMaterial character bodyMaterial = none ∧
      (setup idCounter).world.getContactMaterial moon character ≠ none := by
  refine ⟨_, _, _, rfl, rfl, rfl, ?_, rfl, ?_, ?_, ?_, ?_⟩
  · simp [setup, MoonSurface.setupPhysics, World.add]
  · simp [Material.create]
    omega
  · have hk : ((idCounter + 1, idCounter + 1 + 1) == (idCounter, idCounter + 1)) = false := by
      simp
    simp [setup, MoonSurface.setupPhysics, PhysicsWorld.create, PhysicsWorld.setupWorld,
      PhysicsWorld.createGround, World.getContactMaterial, World.addContactMaterial,
      World.add, World.create, Material.create, tupleKey, List.lookup, hk]
  · have hk : ((idCounter + 1, idCounter + 1 + 1) == (idCounter, idCounter + 1)) = false := by
      simp
    simp [setup, MoonSurface.setupPhysics, PhysicsWorld.create, PhysicsWorld.setupWorld,
      PhysicsWorld.createGround, World.getContactMaterial, World.addContactMaterial,
      World.add, World.create, Material.create, tupleKey, List.lookup, hk]
  · simp [setup, MoonSurface.setupPhysics, PhysicsWorld.create, PhysicsWorld.setupWorld,
      PhysicsWorld.createGround, World.getContactMaterial, World.addContactMaterial,
      World.add, World.create, Material.create, tupleKey, List.lookup]

end MoonPortfolio
